/-
Verification of the signal-to-decision pipeline of `IMPROVED_VERSION.py`
(Simmer FastLoop trading skill).

The Python source is shallowly embedded: pure fragments become Lean
functions, the JSON values handled by `json.loads` / `json.load` become the
inductive `JValue` (numbers are kept as exact decimal pairs, the idealization
of Python floats used throughout), an uncaught Python exception becomes an
`Except.error`, and the network fetches — external collaborators abstracted
by the design — become explicit inputs holding the already-decoded payload
(`none` models a fetch failure).  The file state read and written by the
spot-price provider is passed explicitly as an association list, the shape
`json.load` produces for a JSON object.
-/
import Mathlib

namespace KIT

/-- An exact decimal number `mant / 10 ^ dexp`: the representation our
embedded `json.loads` gives to JSON number literals (idealizing Python
floats as exact decimals). -/
structure DecNum where
  mant : Int
  dexp : Nat
deriving DecidableEq, Repr

/-- The rational value of a decimal number. -/
def DecNum.toRat (n : DecNum) : ℚ := (n.mant : ℚ) / 10 ^ n.dexp

/-- JSON values, as produced by Python's `json.loads` / `json.load`. -/
inductive JValue where
  | null : JValue
  | bool (b : Bool) : JValue
  | num (v : DecNum) : JValue
  | str (s : String) : JValue
  | arr (elems : List JValue) : JValue
  | obj (entries : List (String × JValue)) : JValue
deriving Repr

/-- First binding of a key in an association list: Python `dict` lookup
(the parser below already collapses duplicate keys, so dictionaries coming
from JSON bind each key once). -/
def dictFind : List (String × JValue) → String → Option JValue
  | [], _ => none
  | (k, v) :: rest, key => if k = key then some v else dictFind rest key

/-- Python `dict` assignment `d[key] = v`: replace the binding in place if
the key is present, append it otherwise. -/
def dictUpsert : List (String × JValue) → String → JValue → List (String × JValue)
  | [], key, v => [(key, v)]
  | (k, w) :: rest, key, v =>
    if k = key then (k, v) :: rest else (k, w) :: dictUpsert rest key v

/-- Python truthiness of a JSON value (`if x:`): `None`, `False`, zero,
and empty containers are falsy. -/
def truthy : JValue → Bool
  | .null => false
  | .bool b => b
  | .num v => v.mant ≠ 0
  | .str s => s ≠ ""
  | .arr xs => ¬ xs.isEmpty
  | .obj kvs => ¬ kvs.isEmpty

/-- Prefix test on character lists. -/
def prefixOfChars : List Char → List Char → Bool
  | [], _ => true
  | _ :: _, [] => false
  | a :: as, b :: bs => a = b && prefixOfChars as bs

/-- Character-list version of Python's substring test. -/
def containsChars (hay needle : List Char) : Bool :=
  match hay with
  | [] => prefixOfChars needle []
  | _ :: rest => prefixOfChars needle hay || containsChars rest needle

/-- Python's substring operator `needle in hay` on strings. -/
def strInStr (needle hay : String) : Bool :=
  containsChars hay.toList needle.toList

/-- Numeric value of a list of decimal digit characters. -/
def digitsToNat (ds : List Char) : Nat :=
  ds.foldl (fun n c => n * 10 + (c.toNat - 48)) 0

/-- JSON whitespace skipping. -/
def skipWs (l : List Char) : List Char :=
  l.dropWhile fun c => c = ' ' || c = '\t' || c = '\n' || c = '\r'

/-- Resolve one string escape of a JSON string literal. -/
def unescape (c : Char) : Option Char :=
  if c = '"' then some '"'
  else if c = '\\' then some '\\'
  else if c = '/' then some '/'
  else if c = 'n' then some '\n'
  else if c = 't' then some '\t'
  else if c = 'r' then some '\r'
  else if c = 'b' then some (Char.ofNat 8)
  else if c = 'f' then some (Char.ofNat 12)
  else none

/-- Parse the body of a JSON string literal (after the opening quote),
returning the decoded string and the input past the closing quote. -/
def parseStrBody (acc : List Char) : List Char → Except String (String × List Char)
  | [] => .error "Unterminated string"
  | c :: rest =>
    if c = '"' then .ok (String.mk acc.reverse, rest)
    else if c = '\\' then
      match rest with
      | [] => .error "Unterminated string"
      | e :: rest2 =>
        match unescape e with
        | some d => parseStrBody (d :: acc) rest2
        | none => .error "Invalid escape"
    else parseStrBody (c :: acc) rest

/-- Parse a JSON number: optional minus, integer part (`0` or a nonzero
leading digit run), optional fraction, optional exponent.  Follows the
regular expression Python's `json` module uses for numbers. -/
def parseNum (l : List Char) : Except String (DecNum × List Char) :=
  let (neg, l1) := match l with
    | '-' :: r => (true, r)
    | _ => (false, l)
  let intDs := match l1 with
    | '0' :: _ => ['0']
    | _ => l1.takeWhile Char.isDigit
  if intDs.isEmpty then .error "Expecting value"
  else
    let r1 := l1.drop intDs.length
    let (mant0, dexp0, r2) := match r1 with
      | '.' :: rf =>
        let fds := rf.takeWhile Char.isDigit
        if fds.isEmpty then ((digitsToNat intDs : Int), 0, r1)
        else ((digitsToNat intDs : Int) * 10 ^ fds.length + digitsToNat fds,
              fds.length, rf.drop fds.length)
      | _ => ((digitsToNat intDs : Int), 0, r1)
    let (mant1, dexp1, r3) := match r2 with
      | 'e' :: rE | 'E' :: rE =>
        let (eneg, rE1) := match rE with
          | '-' :: rr => (true, rr)
          | '+' :: rr => (false, rr)
          | _ => (false, rE)
        let eds := rE1.takeWhile Char.isDigit
        if eds.isEmpty then (mant0, dexp0, r2)
        else
          let e := digitsToNat eds
          if eneg then (mant0, dexp0 + e, rE1.drop eds.length)
          else (mant0 * 10 ^ e, dexp0, rE1.drop eds.length)
      | _ => (mant0, dexp0, r2)
    .ok (⟨if neg then -mant1 else mant1, dexp1⟩, r3)

mutual

/-- One fueled step of the JSON value parser.  `parseElems` parses the tail
of an array after its first element, `parseMembers` the tail of an object. -/
def parseVal (fuel : Nat) (l : List Char) : Except String (JValue × List Char) :=
  match fuel with
  | 0 => .error "Fuel exhausted"
  | fuel + 1 =>
    match skipWs l with
    | [] => .error "Expecting value"
    | c :: rest =>
      if c = 'n' then
        match rest with
        | 'u' :: 'l' :: 'l' :: r => .ok (.null, r)
        | _ => .error "Expecting value"
      else if c = 't' then
        match rest with
        | 'r' :: 'u' :: 'e' :: r => .ok (.bool true, r)
        | _ => .error "Expecting value"
      else if c = 'f' then
        match rest with
        | 'a' :: 'l' :: 's' :: 'e' :: r => .ok (.bool false, r)
        | _ => .error "Expecting value"
      else if c = '"' then
        match parseStrBody [] rest with
        | .ok (s, r) => .ok (.str s, r)
        | .error e => .error e
      else if c = '[' then
        match skipWs rest with
        | ']' :: r => .ok (.arr [], r)
        | l1 =>
          match parseVal fuel l1 with
          | .error e => .error e
          | .ok (v, r) => parseElems fuel [v] r
      else if c = Char.ofNat 123 then
        match skipWs rest with
        | c2 :: r =>
          if c2 = Char.ofNat 125 then .ok (.obj [], r)
          else
            match parseMember fuel (c2 :: r) with
            | .error e => .error e
            | .ok (k, v, r2) => parseMembers fuel [(k, v)] r2
        | [] => .error "Unterminated object"
      else
        match parseNum (c :: rest) with
        | .error e => .error e
        | .ok (v, r) => .ok (.num v, r)

/-- Parse `"key": value` inside an object. -/
def parseMember (fuel : Nat) (l : List Char) : Except String (String × JValue × List Char) :=
  match fuel with
  | 0 => .error "Fuel exhausted"
  | fuel + 1 =>
    match skipWs l with
    | '"' :: r =>
      match parseStrBody [] r with
      | .error e => .error e
      | .ok (k, r2) =>
        match skipWs r2 with
        | ':' :: r3 =>
          match parseVal fuel r3 with
          | .error e => .error e
          | .ok (v, r4) => .ok (k, v, r4)
        | _ => .error "Expecting colon"
    | _ => .error "Expecting property name"

/-- Parse the continuation of a JSON array after at least one element
(elements accumulated in reverse). -/
def parseElems (fuel : Nat) (acc : List JValue) (l : List Char) :
    Except String (JValue × List Char) :=
  match fuel with
  | 0 => .error "Fuel exhausted"
  | fuel + 1 =>
    match skipWs l with
    | ']' :: r => .ok (.arr acc.reverse, r)
    | ',' :: r =>
      match parseVal fuel r with
      | .error e => .error e
      | .ok (v, r2) => parseElems fuel (v :: acc) r2
    | _ => .error "Expecting comma or bracket"

/-- Parse the continuation of a JSON object after at least one member;
duplicate keys collapse with the last occurrence winning, as in Python. -/
def parseMembers (fuel : Nat) (acc : List (String × JValue)) (l : List Char) :
    Except String (JValue × List Char) :=
  match fuel with
  | 0 => .error "Fuel exhausted"
  | fuel + 1 =>
    match skipWs l with
    | c :: r =>
      if c = Char.ofNat 125 then .ok (.obj acc, r)
      else if c = ',' then
        match parseMember fuel r with
        | .error e => .error e
        | .ok (k, v, r2) => parseMembers fuel (dictUpsert acc k v) r2
      else .error "Expecting comma or brace"
    | [] => .error "Unterminated object"

end

/-- Python's `json.loads`: parse a complete JSON document, rejecting
trailing garbage.  An `Except.error` models the `JSONDecodeError` the
Python call raises. -/
def jsonLoads (s : String) : Except String JValue :=
  match parseVal (2 * s.length + 2) s.toList with
  | .error e => .error e
  | .ok (v, rest) =>
    match skipWs rest with
    | [] => .ok v
    | _ => .error "Extra data"

/-- The Python type a configuration option is declared with in
`CONFIG_SCHEMA` (`float`, `int`, `str`, `bool`). -/
inductive PyType where
  | float : PyType
  | int : PyType
  | str : PyType
  | bool : PyType
deriving DecidableEq, Repr

/-- Does a JSON value have the declared Python type?  JSON numbers stand
for Python's numeric types. -/
def typeMatches : PyType → JValue → Bool
  | .float, .num _ => true
  | .int, .num _ => true
  | .str, .str _ => true
  | .bool, .bool _ => true
  | _, _ => false

/-- `CONFIG_SCHEMA` of the source: each recognized key with its documented
default value and declared type, in declaration order. -/
def CONFIG_SCHEMA : List (String × JValue × PyType) :=
  [("entry_threshold", .num ⟨5, 2⟩, .float),
   ("min_momentum_pct", .num ⟨5, 1⟩, .float),
   ("max_position", .num ⟨50, 1⟩, .float),
   ("signal_source", .str "binance", .str),
   ("lookback_minutes", .num ⟨5, 0⟩, .int),
   ("min_time_remaining", .num ⟨60, 0⟩, .int),
   ("asset", .str "BTC", .str),
   ("window", .str "5m", .str),
   ("volume_confidence", .bool true, .bool)]

/-- Python `config.get(key, default)`: a method call on the parsed config
object.  On a non-dict it raises `AttributeError` (modelled as an error);
on a dict it returns the bound value or the default. -/
def configGet (config : JValue) (key : String) (dflt : JValue) : Except String JValue :=
  match config with
  | .obj kvs => .ok ((dictFind kvs key).getD dflt)
  | _ => .error "AttributeError"

/-- The loop of `load_config` building `final_config` over a schema. -/
def buildConfig (config : JValue) :
    List (String × JValue × PyType) → Except String (List (String × JValue))
  | [] => .ok []
  | (key, dflt, _) :: rest =>
    match configGet config key dflt with
    | .error e => .error e
    | .ok v =>
      match buildConfig config rest with
      | .error e => .error e
      | .ok tail => .ok ((key, v) :: tail)

/-- `load_config` of the source.  `file` is the raw text of `config.json`
(`none` when the file does not exist); a failed open or JSON parse is
caught, leaving the user configuration empty. -/
def load_config (file : Option String) : Except String (List (String × JValue)) :=
  let config : JValue :=
    match file with
    | none => .obj []
    | some s =>
      match jsonLoads s with
      | .ok v => v
      | .error _ => .obj []
  buildConfig config CONFIG_SCHEMA

/-- The configuration consisting of every documented default. -/
def defaultConfig : List (String × JValue) :=
  CONFIG_SCHEMA.map fun e => (e.1, e.2.1)

theorem buildConfig_obj (kvs : List (String × JValue)) :
    ∀ schema : List (String × JValue × PyType),
      buildConfig (.obj kvs) schema =
        .ok (schema.map fun e => (e.1, (dictFind kvs e.1).getD e.2.1))
  | [] => rfl
  | (key, dflt, ty) :: rest => by
    simp only [buildConfig, configGet, buildConfig_obj kvs rest, List.map_cons]

/-- C3 (counterexample): a user configuration binding the recognized key
`lookback_minutes` (declared type `int`) to the string `"abc"` makes
`load_config` return that string unchanged — the result does not resolve
every recognized key to a value of its declared type. -/
theorem c3_counterexample :
    load_config (some "\x7b\"lookback_minutes\": \"abc\"\x7d") =
      .ok [("entry_threshold", .num ⟨5, 2⟩),
           ("min_momentum_pct", .num ⟨5, 1⟩),
           ("max_position", .num ⟨50, 1⟩),
           ("signal_source", .str "binance"),
           ("lookback_minutes", .str "abc"),
           ("min_time_remaining", .num ⟨60, 0⟩),
           ("asset", .str "BTC"),
           ("window", .str "5m"),
           ("volume_confidence", .bool true)] ∧
    typeMatches .int (.str "abc") = false :=
  ⟨rfl, rfl⟩

/-- C3 (amended): for every user configuration that parses to a JSON
object, `load_config` resolves each of the nine recognized keys to the
user's raw value when the key is present — whatever its type — and to the
documented default when it is absent; every documented default itself has
its declared type. -/
theorem c3_theorem (s : String) (kvs : List (String × JValue))
    (h : jsonLoads s = .ok (.obj kvs)) :
    load_config (some s) =
      .ok (CONFIG_SCHEMA.map fun e => (e.1, (dictFind kvs e.1).getD e.2.1)) ∧
    ∀ e ∈ CONFIG_SCHEMA, typeMatches e.2.2 e.2.1 = true := by
  constructor
  · simp only [load_config, h, buildConfig_obj]
  · decide

/-- C3 (witness): the amended theorem applied to the concrete user
configuration binding `asset` to `"ETH"`. -/
theorem c3_witness :
    load_config (some "\x7b\"asset\": \"ETH\"\x7d") =
      .ok (CONFIG_SCHEMA.map fun e =>
        (e.1, (dictFind [("asset", JValue.str "ETH")] e.1).getD e.2.1)) ∧
    ∀ e ∈ CONFIG_SCHEMA, typeMatches e.2.2 e.2.1 = true :=
  c3_theorem "\x7b\"asset\": \"ETH\"\x7d" [("asset", .str "ETH")] rfl

/-- C10: when the configuration file is absent, and likewise whenever its
text fails to parse as JSON, `load_config` returns the documented default
for every one of the nine recognized keys, raising nothing. -/
theorem c10_theorem :
    load_config none = .ok defaultConfig ∧
    ∀ (s : String) (e : String), jsonLoads s = .error e →
      load_config (some s) = .ok defaultConfig := by
  constructor
  · rfl
  · intro s e h
    simp only [load_config, h]
    rfl

/-- C10 (witness): the concrete text `"not json"` fails to parse and
`load_config` falls back to all defaults. -/
theorem c10_witness :
    jsonLoads "not json" = .error "Expecting value" ∧
    load_config (some "not json") = .ok defaultConfig :=
  ⟨rfl, c10_theorem.2 "not json" "Expecting value" rfl⟩

/-- Gregorian leap-year test. -/
def isLeap (y : ℤ) : Bool :=
  (y % 4 == 0 && y % 100 != 0) || y % 400 == 0

/-- Number of days of month `m` of year `y`. -/
def daysInMonth (y : ℤ) (m : ℤ) : ℤ :=
  if m = 2 then (if isLeap y then 29 else 28)
  else if m = 4 ∨ m = 6 ∨ m = 9 ∨ m = 11 then 30
  else 31

/-- Days elapsed from 1970-01-01 to the civil date `y-m-d` (negative before
the epoch); the standard era-based conversion. -/
def daysFromCivil (y m d : ℤ) : ℤ :=
  let y' := if m ≤ 2 then y - 1 else y
  let era := y' / 400
  let yoe := y' - era * 400
  let mp := (m + 9) % 12
  let doy := (153 * mp + 2) / 5 + d - 1
  let doe := yoe * 365 + yoe / 4 - yoe / 100 + doy
  era * 146097 + doe - 719468

/-- Day of week of a civil date, `0` = Sunday. -/
def dayOfWeek (y m d : ℤ) : ℤ :=
  (daysFromCivil y m d + 4) % 7

/-- Day of month of the first Sunday of month `m` of year `y`. -/
def firstSundayOf (y m : ℤ) : ℤ :=
  1 + (7 - dayOfWeek y m 1) % 7

/-- Day of month on which US daylight-saving time begins (second Sunday of
March, post-2007 rule). -/
def secondSundayMarch (y : ℤ) : ℤ := firstSundayOf y 3 + 7

/-- Day of month on which US daylight-saving time ends (first Sunday of
November, post-2007 rule). -/
def firstSundayNov (y : ℤ) : ℤ := firstSundayOf y 11

/-- Is the naive civil time `y-m-d h:mi` in US/Eastern daylight-saving
time?  Models `pytz.timezone("US/Eastern").localize` with its default
`is_dst=False`, which resolves both the nonexistent spring-forward hour
and the ambiguous fall-back hour to standard time; valid for the
post-2007 transition rule, which covers every year the source can pass
(it always uses the current year). -/
def isDstEastern (y m d h mi : ℤ) : Bool :=
  let code := m * 1000000 + d * 10000 + h * 100 + mi
  decide (3000000 + secondSundayMarch y * 10000 + 300 ≤ code) &&
    decide (code < 11000000 + firstSundayNov y * 10000 + 100)

/-- Python's `\w` on ASCII text. -/
def isWordChar (c : Char) : Bool := c.isAlphanum || c = '_'

/-- Python's `\s` on ASCII text. -/
def isSpaceChar (c : Char) : Bool :=
  c = ' ' || c = '\t' || c = '\n' || c = '\r' || c = Char.ofNat 11 || c = Char.ofNat 12

/-- Match `AM|PM` at the head of the input. -/
def matchAmPm : List Char → Option (List Char × List Char)
  | 'A' :: 'M' :: r => some (['A', 'M'], r)
  | 'P' :: 'M' :: r => some (['P', 'M'], r)
  | _ => none

/-- Match `:\d{2}(?:AM|PM)` at the head of the input. -/
def matchColonMinutes : List Char → Option (List Char × List Char)
  | ':' :: m1 :: m2 :: r =>
    if m1.isDigit && m2.isDigit then
      match matchAmPm r with
      | some (ap, r2) => some (':' :: m1 :: m2 :: ap, r2)
      | none => none
    else none
  | _ => none

/-- Match `\d{1,2}:\d{2}(?:AM|PM)` at the head of the input, greedily
preferring two hour digits and backtracking to one, as the regex engine
does. -/
def matchTimeGroup : List Char → Option (List Char × List Char)
  | [] => none
  | d1 :: rest =>
    if d1.isDigit then
      match rest with
      | d2 :: rest2 =>
        if d2.isDigit then
          match matchColonMinutes rest2 with
          | some (t, r) => some (d1 :: d2 :: t, r)
          | none =>
            match matchColonMinutes rest with
            | some (t, r) => some (d1 :: t, r)
            | none => none
        else
          match matchColonMinutes rest with
          | some (t, r) => some (d1 :: t, r)
          | none => none
      | [] => none
    else none

/-- Match `\s*(\d{1,2}:\d{2}(?:AM|PM))\s*ET` at the head of the input,
returning the captured time group. -/
def matchTailAfterDash (l : List Char) : Option (List Char) :=
  match matchTimeGroup (l.dropWhile isSpaceChar) with
  | none => none
  | some (t, r) =>
    match r.dropWhile isSpaceChar with
    | 'E' :: 'T' :: _ => some t
    | _ => none

/-- The lazy `.*?-` step: advance over non-newline characters, at each
dash trying the remainder of the pattern, taking the shortest success. -/
def scanForDash : List Char → Option (List Char)
  | [] => none
  | c :: rest =>
    match (if c = '-' then matchTailAfterDash rest else none) with
    | some t => some t
    | none => if c = '\n' then none else scanForDash rest

/-- Match the whole deadline pattern anchored at the head of the input,
returning the two captured groups. -/
def matchPatternAt (l : List Char) : Option (String × String) :=
  let w := l.takeWhile isWordChar
  if w.isEmpty then none
  else
    match l.drop w.length with
    | ' ' :: r2 =>
      let ds := r2.takeWhile Char.isDigit
      if ds.isEmpty then none
      else
        match r2.drop ds.length with
        | ',' :: r4 =>
          match scanForDash r4 with
          | some t => some (String.mk (w ++ ' ' :: ds), String.mk t)
          | none => none
        | _ => none
    | _ => none

/-- `re.search` of the source's deadline pattern
`(\w+ \d+),.*?-\s*(\d{1,2}:\d{2}(?:AM|PM))\s*ET`: try every start
position left to right. -/
def regexSearch : List Char → Option (String × String)
  | [] => none
  | c :: rest =>
    match matchPatternAt (c :: rest) with
    | some g => some g
    | none => regexSearch rest

/-- Split the first captured group `"<word> <digits>"` back into its word
and digit parts, as `strptime`'s `%B %d` fields see them. -/
def splitDate (g1 : String) : Option (String × List Char) :=
  let cs := g1.toList
  let w := cs.takeWhile isWordChar
  match cs.drop w.length with
  | ' ' :: rest =>
    if rest.isEmpty || ¬ rest.all Char.isDigit then none
    else some (String.mk w, rest)
  | _ => none

/-- ASCII lower-casing of one character. -/
def charLower (c : Char) : Char :=
  if 65 ≤ c.toNat ∧ c.toNat ≤ 90 then Char.ofNat (c.toNat + 32) else c

/-- Python's `str.lower()` on ASCII text. -/
def pyLower (s : String) : String :=
  String.mk (s.toList.map charLower)

/-- `strptime`'s `%B`: the full month names, matched case-insensitively. -/
def monthFromName (w : String) : Option ℤ :=
  let s := pyLower w
  if s = "january" then some 1
  else if s = "february" then some 2
  else if s = "march" then some 3
  else if s = "april" then some 4
  else if s = "may" then some 5
  else if s = "june" then some 6
  else if s = "july" then some 7
  else if s = "august" then some 8
  else if s = "september" then some 9
  else if s = "october" then some 10
  else if s = "november" then some 11
  else if s = "december" then some 12
  else none

/-- Split the second captured group `"<digits>:<digits>AM|PM"` into hour
digits, minute digits, and the meridiem flag, as `strptime`'s `%I:%M%p`
fields see them. -/
def parseTimeGroup (g2 : String) : Option (List Char × List Char × Bool) :=
  let cs := g2.toList
  let hd := cs.takeWhile Char.isDigit
  if hd.isEmpty then none
  else
    match cs.drop hd.length with
    | ':' :: r2 =>
      let mds := r2.takeWhile Char.isDigit
      match r2.drop mds.length with
      | 'A' :: 'M' :: [] => some (hd, mds, false)
      | 'P' :: 'M' :: [] => some (hd, mds, true)
      | _ => none
    | _ => none

/-- 12-hour to 24-hour clock conversion. -/
def hourTo24 (h : ℤ) (isPM : Bool) : ℤ :=
  if isPM then (if h = 12 then 12 else h + 12)
  else (if h = 12 then 0 else h)

/-- The `datetime.strptime(dt_str, "%B %d %Y %I:%M%p")` step applied to
the two captured groups and the current year: yields (month, day,
24-hour, minute) or fails with the range checks `strptime` and the
`datetime` constructor perform (`None` models the caught `ValueError`). -/
def strptimeParts (y : ℤ) (g1 g2 : String) : Option (ℤ × ℤ × ℤ × ℤ) :=
  match splitDate g1, parseTimeGroup g2 with
  | some (w, ds), some (hd, mds, isPM) =>
    match monthFromName w with
    | none => none
    | some mo =>
      let dv : ℤ := (digitsToNat ds : ℤ)
      let hv : ℤ := (digitsToNat hd : ℤ)
      let mv : ℤ := (digitsToNat mds : ℤ)
      if ds.length ≤ 2 ∧ 1 ≤ dv ∧ dv ≤ daysInMonth y mo ∧
          hd.length ≤ 2 ∧ 1 ≤ hv ∧ hv ≤ 12 ∧ mds.length = 2 ∧ mv ≤ 59 then
        some (mo, dv, hourTo24 hv isPM, mv)
      else none
  | _, _ => none

/-- Deadline-pattern extraction of `parse_et_to_utc`: the regex search
followed by the `strptime` step. -/
def extractFields (y : ℤ) (question : String) : Option (ℤ × ℤ × ℤ × ℤ) :=
  match regexSearch question.toList with
  | none => none
  | some (g1, g2) => strptimeParts y g1 g2

/-- `parse_et_to_utc` of the source: extract the civil time from the
question text, interpret it as US/Eastern wall-clock time of year `y`
(the current year in the source), and convert to an absolute UTC instant,
returned as seconds from the 1970 epoch.  `none` models the `None`
returned when the pattern does not match or parsing fails. -/
def parse_et_to_utc (y : ℤ) (question : String) : Option ℤ :=
  match extractFields y question with
  | none => none
  | some (mo, d, h, mi) =>
    let offset : ℤ := if isDstEastern y mo d h mi then 4 else 5
    some ((daysFromCivil y mo d * 1440 + h * 60 + mi + offset * 60) * 60)

theorem firstSundayOf_bounds (y m : ℤ) :
    1 ≤ firstSundayOf y m ∧ firstSundayOf y m ≤ 7 := by
  have h1 : 0 ≤ (7 - dayOfWeek y m 1) % 7 :=
    Int.emod_nonneg _ (by norm_num)
  have h2 : (7 - dayOfWeek y m 1) % 7 < 7 :=
    Int.emod_lt_of_pos _ (by norm_num)
  unfold firstSundayOf
  omega

set_option maxHeartbeats 2000000 in
theorem monthFromName_bounds (w : String) (mo : ℤ)
    (h : monthFromName w = some mo) : 1 ≤ mo ∧ mo ≤ 12 := by
  unfold monthFromName at h
  dsimp only at h
  repeat' split at h
  all_goals
    first
      | exact Option.noConfusion h
      | (injection h with h2; omega)

theorem daysInMonth_le (y mo : ℤ) : daysInMonth y mo ≤ 31 := by
  unfold daysInMonth
  split
  · split <;> omega
  · split <;> omega

theorem hourTo24_bounds (h : ℤ) (pm : Bool) (h1 : 1 ≤ h) (h2 : h ≤ 12) :
    0 ≤ hourTo24 h pm ∧ hourTo24 h pm ≤ 23 := by
  unfold hourTo24
  split <;> split <;> omega

theorem strptimeParts_bounds (y : ℤ) (g1 g2 : String) (mo d h mi : ℤ)
    (hx : strptimeParts y g1 g2 = some (mo, d, h, mi)) :
    1 ≤ mo ∧ mo ≤ 12 ∧ 1 ≤ d ∧ d ≤ 31 ∧ 0 ≤ h ∧ h ≤ 23 ∧ 0 ≤ mi ∧ mi ≤ 59 := by
  unfold strptimeParts at hx
  split at hx
  case _ w ds hd mds isPM _ _ =>
    split at hx
    case _ => exact absurd hx (by simp)
    case _ mo' hmo =>
      dsimp only at hx
      split at hx
      case _ hcond =>
        obtain ⟨hm1, hm2⟩ := monthFromName_bounds _ _ hmo
        have hdm := daysInMonth_le y mo'
        simp only [Option.some.injEq, Prod.mk.injEq] at hx
        obtain ⟨he1, he2, he3, he4⟩ := hx
        obtain ⟨hc1, hc2, hc3, hc4, hc5, hc6, hc7, hc8⟩ := hcond
        have hh := hourTo24_bounds _ isPM hc5 hc6
        have hmi0 : (0 : ℤ) ≤ (digitsToNat mds : ℤ) := Int.natCast_nonneg _
        omega
      case _ => exact absurd hx (by simp)
  case _ => exact absurd hx (by simp)

theorem isDst_iff (y m d h mi : ℤ) :
    isDstEastern y m d h mi = true ↔
      3000000 + secondSundayMarch y * 10000 + 300 ≤
          m * 1000000 + d * 10000 + h * 100 + mi ∧
        m * 1000000 + d * 10000 + h * 100 + mi <
          11000000 + firstSundayNov y * 10000 + 100 := by
  simp [isDstEastern]

/-- C4: for every question whose embedded (month-day, time, meridiem)
matches the deadline pattern with an ET suffix, `parse_et_to_utc`
interprets the civil time with the US/Eastern daylight-saving rule for the
specific calendar date: any date strictly before the spring-forward Sunday
or strictly after the fall-back Sunday converts with the winter offset
(UTC−5), and any date strictly between them converts with the summer
offset (UTC−4). -/
theorem c4_theorem (y : ℤ) (hy : 2007 ≤ y) (q : String) (mo d h mi : ℤ)
    (hx : extractFields y q = some (mo, d, h, mi)) :
    ((mo < 3 ∨ (mo = 3 ∧ d < secondSundayMarch y) ∨
        (mo = 11 ∧ firstSundayNov y < d) ∨ 11 < mo) →
      parse_et_to_utc y q =
        some ((daysFromCivil y mo d * 1440 + h * 60 + mi + 5 * 60) * 60)) ∧
    (((mo = 3 ∧ secondSundayMarch y < d) ∨ (3 < mo ∧ mo < 11) ∨
        (mo = 11 ∧ d < firstSundayNov y)) →
      parse_et_to_utc y q =
        some ((daysFromCivil y mo d * 1440 + h * 60 + mi + 4 * 60) * 60)) := by
  have hb : 1 ≤ mo ∧ mo ≤ 12 ∧ 1 ≤ d ∧ d ≤ 31 ∧ 0 ≤ h ∧ h ≤ 23 ∧
      0 ≤ mi ∧ mi ≤ 59 := by
    unfold extractFields at hx
    split at hx
    case _ => exact absurd hx (by simp)
    case _ g1 g2 _ => exact strptimeParts_bounds y g1 g2 mo d h mi hx
  have hss : 8 ≤ secondSundayMarch y ∧ secondSundayMarch y ≤ 14 := by
    have := firstSundayOf_bounds y 3
    unfold secondSundayMarch
    omega
  have hfs : 1 ≤ firstSundayNov y ∧ firstSundayNov y ≤ 7 :=
    firstSundayOf_bounds y 11
  constructor
  · intro hside
    have hdst : isDstEastern y mo d h mi = false := by
      rw [← Bool.not_eq_true, isDst_iff]
      omega
    simp [parse_et_to_utc, hx, hdst]
  · intro hside
    have hdst : isDstEastern y mo d h mi = true := by
      rw [isDst_iff]
      omega
    simp [parse_et_to_utc, hx, hdst]

/-- C4 (witness): in 2025 the transition Sundays are March 9 and
November 2; the same clock reading "1:05PM ET" on March 1 converts with
the winter offset and on March 20 with the summer offset. -/
theorem c4_witness :
    parse_et_to_utc 2025 "Bitcoin Up or Down - March 1, 1:00PM-1:05PM ET" =
      some ((daysFromCivil 2025 3 1 * 1440 + 13 * 60 + 5 + 5 * 60) * 60) ∧
    parse_et_to_utc 2025 "Bitcoin Up or Down - March 20, 1:00PM-1:05PM ET" =
      some ((daysFromCivil 2025 3 20 * 1440 + 13 * 60 + 5 + 4 * 60) * 60) :=
  ⟨(c4_theorem 2025 (by norm_num)
      "Bitcoin Up or Down - March 1, 1:00PM-1:05PM ET" 3 1 13 5 (by decide)).1
      (Or.inr (Or.inl ⟨rfl, by decide⟩)),
    (c4_theorem 2025 (by norm_num)
      "Bitcoin Up or Down - March 20, 1:00PM-1:05PM ET" 3 20 13 5 (by decide)).2
      (Or.inl ⟨rfl, by decide⟩)⟩

/-- `ASSET_PATTERNS` of the source. -/
def ASSET_PATTERNS : List (String × List String) :=
  [("BTC", ["bitcoin up or down"]),
   ("ETH", ["ethereum up or down"]),
   ("SOL", ["solana up or down"])]

/-- `ASSET_PATTERNS.get(asset, ASSET_PATTERNS["BTC"])` of the source. -/
def assetPatterns (asset : String) : List String :=
  (ASSET_PATTERNS.lookup asset).getD ["bitcoin up or down"]

/-- A raw market record as returned by the listing endpoint: the fields
`discover_markets` reads, each `none` when the key is absent.  For the
question field a JSON `null` value is also `none`: the source coalesces
it with `or ""` before any other use of it can be reached. -/
structure RawMarket where
  question : Option String
  slug : Option String
  conditionId : Option String
  outcomePrices : Option String
  feeRateBps : Option Int
deriving Repr

/-- A discovered market candidate, as the dict `discover_markets`
appends. -/
structure Candidate where
  question : String
  slug : String
  condition_id : Option String
  end_time : ℤ
  outcome_prices : JValue
  fee_rate_bps : Int
deriving Repr

/-- Does a record's lower-cased question contain one of the asset's
phrase patterns? -/
def questionMatches (asset : String) (m : RawMarket) : Bool :=
  (assetPatterns asset).any fun p => strInStr p (pyLower (m.question.getD ""))

/-- Does a record's slug contain the hyphen-delimited window token? -/
def slugMatches (window : String) (m : RawMarket) : Bool :=
  strInStr ("-" ++ window ++ "-") (m.slug.getD "")

/-- The per-record loop of `discover_markets`, over the listing result.
A malformed `outcomePrices` string makes `json.loads` raise with no
handler in scope, modelled as the `Except.error` aborting the whole
call. -/
def discoverLoop (y : ℤ) (asset window : String) :
    List RawMarket → Except String (List Candidate)
  | [] => .ok []
  | m :: rest =>
    if questionMatches asset m && slugMatches window m then
      match parse_et_to_utc y (m.question.getD "") with
      | none => discoverLoop y asset window rest
      | some t =>
        match jsonLoads (m.outcomePrices.getD "[0.5, 0.5]") with
        | .error e => .error e
        | .ok prices =>
          match discoverLoop y asset window rest with
          | .error e => .error e
          | .ok tail =>
            .ok ({ question := m.question.getD ""
                   slug := m.slug.getD ""
                   condition_id := m.conditionId
                   end_time := t
                   outcome_prices := prices
                   fee_rate_bps := m.feeRateBps.getD 0 } :: tail)
    else discoverLoop y asset window rest

/-- `discover_markets` of the source, past the abstracted fetch: `none`
models a fetch failure or a non-list payload, for which the source
returns `[]`. -/
def discover_markets (y : ℤ) (asset window : String)
    (fetched : Option (List RawMarket)) : Except String (List Candidate) :=
  match fetched with
  | none => .ok []
  | some ms => discoverLoop y asset window ms

/-- The inclusion predicate `discover_markets` actually applies to a
record: phrase pattern in the lower-cased question, window token in the
slug, and a parseable deadline in the question. -/
def includePred (y : ℤ) (asset window : String) (m : RawMarket) : Bool :=
  questionMatches asset m && slugMatches window m &&
    (parse_et_to_utc y (m.question.getD "")).isSome

/-- The candidate built from a record (with junk defaults on the branches
`discoverLoop` never takes for records it includes successfully). -/
def toCand (y : ℤ) (m : RawMarket) : Candidate :=
  { question := m.question.getD ""
    slug := m.slug.getD ""
    condition_id := m.conditionId
    end_time := (parse_et_to_utc y (m.question.getD "")).getD 0
    outcome_prices := (jsonLoads (m.outcomePrices.getD "[0.5, 0.5]")).toOption.getD .null
    fee_rate_bps := m.feeRateBps.getD 0 }

/-- C1 (counterexample): a record matching the asset phrase, the window
token, and the deadline pattern, but carrying the malformed outcome-price
text `"oops"`, makes `discover_markets` propagate the JSON parse fault
(the uncaught `json.loads` exception) instead of recovering with the
[0.5, 0.5] default. -/
theorem c1_counterexample :
    questionMatches "BTC"
      { question := some "Bitcoin Up or Down - March 7, 1:00PM-1:05PM ET",
        slug := some "bitcoin-up-or-down-5m-x", conditionId := some "c1",
        outcomePrices := some "oops", feeRateBps := none } = true ∧
    slugMatches "5m"
      { question := some "Bitcoin Up or Down - March 7, 1:00PM-1:05PM ET",
        slug := some "bitcoin-up-or-down-5m-x", conditionId := some "c1",
        outcomePrices := some "oops", feeRateBps := none } = true ∧
    discover_markets 2025 "BTC" "5m" (some
      [{ question := some "Bitcoin Up or Down - March 7, 1:00PM-1:05PM ET",
         slug := some "bitcoin-up-or-down-5m-x", conditionId := some "c1",
         outcomePrices := some "oops", feeRateBps := none }]) =
      .error "Expecting value" :=
  ⟨rfl, rfl, rfl⟩

/-- C1 (amended): for every record that passes the phrase, window and
deadline gates, the outcome-price field is parsed as JSON into the
candidate's price pair, with the `[0.5, 0.5]` equal split used exactly
when the field is absent; a present but malformed field is not recovered:
the JSON fault aborts `discover_markets`. -/
theorem c1_theorem (y : ℤ) (asset window : String) (m : RawMarket)
    (rest : List RawMarket) (t : ℤ)
    (hq : questionMatches asset m = true) (hs : slugMatches window m = true)
    (hp : parse_et_to_utc y (m.question.getD "") = some t) :
    (m.outcomePrices = none →
      discoverLoop y asset window (m :: rest) =
        (discoverLoop y asset window rest).map fun tail =>
          { question := m.question.getD "", slug := m.slug.getD "",
            condition_id := m.conditionId, end_time := t,
            outcome_prices := .arr [.num ⟨5, 1⟩, .num ⟨5, 1⟩],
            fee_rate_bps := m.feeRateBps.getD 0 } :: tail) ∧
    (∀ s v, m.outcomePrices = some s → jsonLoads s = .ok v →
      discoverLoop y asset window (m :: rest) =
        (discoverLoop y asset window rest).map fun tail =>
          { question := m.question.getD "", slug := m.slug.getD "",
            condition_id := m.conditionId, end_time := t,
            outcome_prices := v,
            fee_rate_bps := m.feeRateBps.getD 0 } :: tail) ∧
    (∀ s e, m.outcomePrices = some s → jsonLoads s = .error e →
      discoverLoop y asset window (m :: rest) = .error e) := by
  refine ⟨fun habs => ?_, fun s v hpres hok => ?_, fun s e hpres herr => ?_⟩
  · simp only [discoverLoop, hq, hs, Bool.and_self, if_true, hp, habs,
      Option.getD_none, Option.getD_some]
    have hdflt : jsonLoads "[0.5, 0.5]" =
        .ok (.arr [.num ⟨5, 1⟩, .num ⟨5, 1⟩]) := rfl
    rw [hdflt]
    cases discoverLoop y asset window rest <;> simp [Except.map]
  · simp only [discoverLoop, hq, hs, Bool.and_self, if_true, hp, hpres,
      Option.getD_none, Option.getD_some]
    rw [hok]
    cases discoverLoop y asset window rest <;> simp [Except.map]
  · simp only [discoverLoop, hq, hs, Bool.and_self, if_true, hp, hpres,
      Option.getD_none, Option.getD_some]
    rw [herr]

/-- C1 (witness): the amended theorem at a concrete record with the field
absent, prepended to an empty tail. -/
theorem c1_witness :
    discoverLoop 2025 "BTC" "5m"
      [{ question := some "Bitcoin Up or Down - March 7, 1:00PM-1:05PM ET",
         slug := some "bitcoin-up-or-down-5m-x", conditionId := some "c1",
         outcomePrices := none, feeRateBps := none }] =
      (discoverLoop 2025 "BTC" "5m" []).map fun tail =>
        { question := "Bitcoin Up or Down - March 7, 1:00PM-1:05PM ET",
          slug := "bitcoin-up-or-down-5m-x",
          condition_id := some "c1", end_time := 1741370700,
          outcome_prices := .arr [.num ⟨5, 1⟩, .num ⟨5, 1⟩],
          fee_rate_bps := 0 } :: tail :=
  (c1_theorem 2025 "BTC" "5m"
    { question := some "Bitcoin Up or Down - March 7, 1:00PM-1:05PM ET",
      slug := some "bitcoin-up-or-down-5m-x", conditionId := some "c1",
      outcomePrices := none, feeRateBps := none }
    [] 1741370700 rfl rfl (by decide)).1 rfl

theorem discoverLoop_ok_filter (y : ℤ) (asset window : String) :
    ∀ (ms : List RawMarket) (l : List Candidate),
      discoverLoop y asset window ms = .ok l →
      l = (ms.filter (includePred y asset window)).map (toCand y) := by
  intro ms
  induction ms with
  | nil =>
    intro l h
    injection h with h
    simp [h.symm]
  | cons m rest ih =>
    intro l h
    by_cases hg : (questionMatches asset m && slugMatches window m) = true
    · rw [discoverLoop, if_pos hg] at h
      cases hp : parse_et_to_utc y (m.question.getD "") with
      | none =>
        rw [hp] at h
        have hpred : includePred y asset window m = false := by
          simp [includePred, hp]
        simp only [List.filter, hpred]
        exact ih l h
      | some t =>
        rw [hp] at h
        cases hj : jsonLoads (m.outcomePrices.getD "[0.5, 0.5]") with
        | error e => rw [hj] at h; exact Except.noConfusion h
        | ok v =>
          rw [hj] at h
          cases hr : discoverLoop y asset window rest with
          | error e => rw [hr] at h; exact Except.noConfusion h
          | ok tail =>
            rw [hr] at h
            injection h with h
            have hpred : includePred y asset window m = true := by
              simp [includePred, hp, Bool.and_eq_true] at hg ⊢
              exact hg
            simp only [List.filter, hpred, List.map]
            rw [← h, ih tail hr]
            have htc : toCand y m =
                { question := m.question.getD "", slug := m.slug.getD "",
                  condition_id := m.conditionId, end_time := t,
                  outcome_prices := v,
                  fee_rate_bps := m.feeRateBps.getD 0 } := by
              simp [toCand, hp, hj, Except.toOption]
            rw [htc]
    · rw [discoverLoop, if_neg hg] at h
      rw [Bool.not_eq_true] at hg
      have hpred : includePred y asset window m = false := by
        simp [includePred, hg]
      simp only [List.filter, hpred]
      exact ih l h

/-- C2 (counterexample): two records agreeing on both stated conditions —
phrase pattern present in the lower-cased question and window token
present in the slug — are treated differently: the first (with a
parseable deadline) is included, the second (whose question the deadline
pattern does not match) is excluded, so inclusion is not a predicate of
those two conditions alone. -/
theorem c2_counterexample :
    questionMatches "BTC"
      { question := some "Bitcoin Up or Down - March 7, 1:00PM-1:05PM ET",
        slug := some "bitcoin-up-or-down-5m-x", conditionId := some "c1",
        outcomePrices := none, feeRateBps := none } = true ∧
    slugMatches "5m"
      { question := some "Bitcoin Up or Down - March 7, 1:00PM-1:05PM ET",
        slug := some "bitcoin-up-or-down-5m-x", conditionId := some "c1",
        outcomePrices := none, feeRateBps := none } = true ∧
    questionMatches "BTC"
      { question := some "bitcoin up or down ???",
        slug := some "bitcoin-up-or-down-5m-y", conditionId := some "c2",
        outcomePrices := some "[0.4, 0.6]", feeRateBps := some 10 } = true ∧
    slugMatches "5m"
      { question := some "bitcoin up or down ???",
        slug := some "bitcoin-up-or-down-5m-y", conditionId := some "c2",
        outcomePrices := some "[0.4, 0.6]", feeRateBps := some 10 } = true ∧
    discover_markets 2025 "BTC" "5m" (some
      [{ question := some "Bitcoin Up or Down - March 7, 1:00PM-1:05PM ET",
         slug := some "bitcoin-up-or-down-5m-x", conditionId := some "c1",
         outcomePrices := none, feeRateBps := none },
       { question := some "bitcoin up or down ???",
         slug := some "bitcoin-up-or-down-5m-y", conditionId := some "c2",
         outcomePrices := some "[0.4, 0.6]", feeRateBps := some 10 }]) =
      .ok [{ question := "Bitcoin Up or Down - March 7, 1:00PM-1:05PM ET",
             slug := "bitcoin-up-or-down-5m-x",
             condition_id := some "c1", end_time := 1741370700,
             outcome_prices := .arr [.num ⟨5, 1⟩, .num ⟨5, 1⟩],
             fee_rate_bps := 0 }] :=
  ⟨rfl, rfl, rfl, rfl, rfl⟩

/-- C2 (amended): whenever `discover_markets` returns a result list, a
record contributes a candidate exactly when the lower-cased question
contains one of the asset's patterns AND the slug contains the
hyphen-delimited window token AND the question's deadline parses; this
predicate reads only the question and slug fields, so changing any other
field of a record never changes whether it is included. -/
theorem c2_theorem (y : ℤ) (asset window : String) (ms : List RawMarket)
    (l : List Candidate)
    (h : discover_markets y asset window (some ms) = .ok l) :
    l = (ms.filter (includePred y asset window)).map (toCand y) ∧
    ∀ m m' : RawMarket, m.question = m'.question → m.slug = m'.slug →
      includePred y asset window m = includePred y asset window m' := by
  constructor
  · exact discoverLoop_ok_filter y asset window ms l h
  · intro m m' h1 h2
    simp [includePred, questionMatches, slugMatches, h1, h2]

/-- C2 (witness): the amended theorem at the concrete two-record listing
of the counterexample. -/
theorem c2_witness :
    ([{ question := "Bitcoin Up or Down - March 7, 1:00PM-1:05PM ET",
        slug := "bitcoin-up-or-down-5m-x",
        condition_id := some "c1", end_time := 1741370700,
        outcome_prices := JValue.arr [.num ⟨5, 1⟩, .num ⟨5, 1⟩],
        fee_rate_bps := 0 }] : List Candidate) =
      (([{ question := some "Bitcoin Up or Down - March 7, 1:00PM-1:05PM ET",
           slug := some "bitcoin-up-or-down-5m-x", conditionId := some "c1",
           outcomePrices := none, feeRateBps := none },
         { question := some "bitcoin up or down ???",
           slug := some "bitcoin-up-or-down-5m-y", conditionId := some "c2",
           outcomePrices := some "[0.4, 0.6]", feeRateBps := some 10 }] :
            List RawMarket).filter (includePred 2025 "BTC" "5m")).map
        (toCand 2025) ∧
    ∀ m m' : RawMarket, m.question = m'.question → m.slug = m'.slug →
      includePred 2025 "BTC" "5m" m = includePred 2025 "BTC" "5m" m' :=
  c2_theorem 2025 "BTC" "5m"
    [{ question := some "Bitcoin Up or Down - March 7, 1:00PM-1:05PM ET",
       slug := some "bitcoin-up-or-down-5m-x", conditionId := some "c1",
       outcomePrices := none, feeRateBps := none },
     { question := some "bitcoin up or down ???",
       slug := some "bitcoin-up-or-down-5m-y", conditionId := some "c2",
       outcomePrices := some "[0.4, 0.6]", feeRateBps := some 10 }]
    [{ question := "Bitcoin Up or Down - March 7, 1:00PM-1:05PM ET",
       slug := "bitcoin-up-or-down-5m-x",
       condition_id := some "c1", end_time := 1741370700,
       outcome_prices := .arr [.num ⟨5, 1⟩, .num ⟨5, 1⟩],
       fee_rate_bps := 0 }] rfl

/-- One one-minute OHLCV candle, with the fields the source reads from
the kline array (indices 0, 1, 2, 3, 4, 5). -/
structure Candle where
  openTime : ℚ
  openPrice : ℚ
  highPrice : ℚ
  lowPrice : ℚ
  closePrice : ℚ
  volume : ℚ

/-- The momentum signal dict both providers return. -/
structure Signal where
  momentum_pct : ℚ
  direction : String
  price_now : ℚ
  volume_ratio : ℚ

/-- `get_binance_momentum` of the source, past the abstracted fetch:
`none` models a fetch failure or a non-list payload.  The division the
source performs with no guard raises `ZeroDivisionError` when the first
candle's open price is zero, modelled as the `Except.error`. -/
def get_binance_momentum (fetched : Option (List Candle)) :
    Except String (Option Signal) :=
  match fetched with
  | none => .ok none
  | some candles =>
    if candles.length < 2 then .ok none
    else
      let price_then := (candles.headD ⟨0, 0, 0, 0, 0, 0⟩).openPrice
      let price_now := (candles.getLastD ⟨0, 0, 0, 0, 0, 0⟩).closePrice
      if price_then = 0 then .error "ZeroDivisionError"
      else
        let momentum_pct := (price_now - price_then) / price_then * 100
        let volumes := candles.map Candle.volume
        let avg_vol := volumes.sum / (volumes.length : ℚ)
        let vol_ratio := if 0 < avg_vol then volumes.getLastD 0 / avg_vol else 1
        .ok (some { momentum_pct := momentum_pct,
                    direction := if 0 < momentum_pct then "up" else "down",
                    price_now := price_now,
                    volume_ratio := vol_ratio })

/-- The mean volume across a candle window, as the spec states it. -/
def meanVolume (cs : List Candle) : ℚ :=
  (cs.map Candle.volume).sum / (cs.length : ℚ)

theorem headD_of_head? {α : Type} (l : List α) (a d : α)
    (h : l.head? = some a) : l.headD d = a := by
  cases l <;> simp_all

theorem getLastD_of_getLast? {α : Type} (l : List α) (a d : α)
    (h : l.getLast? = some a) : l.getLastD d = a := by
  rw [List.getLastD_eq_getLast?, h]
  rfl

theorem getLast?_map_volume (cs : List Candle) (c : Candle)
    (h : cs.getLast? = some c) :
    (cs.map Candle.volume).getLast? = some c.volume := by
  rw [List.getLast?_map, h]
  rfl

/-- C5: the exchange-candle provider returns no signal on a failed fetch
or fewer than 2 candles; otherwise (for candle lists with a nonzero first
open and nonnegative volumes, as real klines have) its momentum equals
(last close − first open) ÷ first open × 100 and its volume ratio equals
last volume ÷ mean volume, with ratio 1 when the mean volume is zero. -/
theorem c5_theorem (cs : List Candle) :
    get_binance_momentum none = .ok none ∧
    (cs.length < 2 → get_binance_momentum (some cs) = .ok none) ∧
    ∀ c0 c1, 2 ≤ cs.length → cs.head? = some c0 → cs.getLast? = some c1 →
      c0.openPrice ≠ 0 → (∀ c ∈ cs, 0 ≤ c.volume) →
      ∃ sig, get_binance_momentum (some cs) = .ok (some sig) ∧
        sig.momentum_pct =
          (c1.closePrice - c0.openPrice) / c0.openPrice * 100 ∧
        (meanVolume cs = 0 → sig.volume_ratio = 1) ∧
        (meanVolume cs ≠ 0 →
          sig.volume_ratio = c1.volume / meanVolume cs) := by
  refine ⟨rfl, fun h => ?_, fun c0 c1 h2 hh hl h0 hv => ?_⟩
  · rw [get_binance_momentum, if_pos h]
  · rw [get_binance_momentum, if_neg (not_lt.mpr h2),
      headD_of_head? cs c0 _ hh, getLastD_of_getLast? cs c1 _ hl, if_neg h0]
    refine ⟨_, rfl, rfl, ?_, ?_⟩ <;> intro hm
    · have : ¬ (0 : ℚ) < (cs.map Candle.volume).sum / ((cs.map Candle.volume).length : ℚ) := by
        rw [List.length_map]
        rw [meanVolume] at hm
        rw [hm]
        exact lt_irrefl 0
      simp only [this, if_false]
    · have hnn : (0 : ℚ) ≤ (cs.map Candle.volume).sum :=
        List.sum_nonneg (by
          intro x hx
          obtain ⟨c, hc, rfl⟩ := List.mem_map.mp hx
          exact hv c hc)
      have hlen : (0 : ℚ) < ((cs.length : ℕ) : ℚ) := by
        have : 0 < cs.length := by omega
        exact_mod_cast this
      have hpos : (0 : ℚ) < (cs.map Candle.volume).sum / ((cs.map Candle.volume).length : ℚ) := by
        rw [List.length_map]
        rcases lt_or_eq_of_le hnn with h | h
        · exact div_pos h hlen
        · exfalso
          apply hm
          rw [meanVolume, ← h, zero_div]
      simp only [hpos, if_true]
      rw [getLastD_of_getLast? _ c1.volume 0 (getLast?_map_volume cs c1 hl),
        List.length_map]
      rfl

/-- C5 (witness): a concrete two-candle window with first open 100, last
close 110, volumes 10 and 30. -/
theorem c5_witness :
    ∃ sig,
      get_binance_momentum (some [⟨0, 100, 0, 0, 0, 10⟩, ⟨1, 0, 0, 0, 110, 30⟩]) =
        .ok (some sig) ∧
      sig.momentum_pct = ((110 : ℚ) - 100) / 100 * 100 ∧
      (meanVolume [⟨0, 100, 0, 0, 0, 10⟩, ⟨1, 0, 0, 0, 110, 30⟩] = 0 →
        sig.volume_ratio = 1) ∧
      (meanVolume [⟨0, 100, 0, 0, 0, 10⟩, ⟨1, 0, 0, 0, 110, 30⟩] ≠ 0 →
        sig.volume_ratio =
          (30 : ℚ) / meanVolume [⟨0, 100, 0, 0, 0, 10⟩, ⟨1, 0, 0, 0, 110, 30⟩]) :=
  (c5_theorem [⟨0, 100, 0, 0, 0, 10⟩, ⟨1, 0, 0, 0, 110, 30⟩]).2.2
    ⟨0, 100, 0, 0, 0, 10⟩ ⟨1, 0, 0, 0, 110, 30⟩ (by norm_num) rfl rfl
    (by norm_num)
    (by
      intro c hc
      simp only [List.mem_cons, List.not_mem_nil, or_false] at hc
      rcases hc with rfl | rfl <;> norm_num)

/-- The key under which the spot-price provider persists an asset's last
price: `f"{asset}_last_price"`. -/
def STATE_KEY (asset : String) : String := asset ++ "_last_price"

/-- The numeric value Python arithmetic gives a JSON value (`bool` is an
`int` subtype in Python); `none` when the operand raises `TypeError`. -/
def jvalueNumeric : JValue → Option ℚ
  | .num v => some v.toRat
  | .bool b => some (if b then 1 else 0)
  | _ => none

/-- `get_coingecko_momentum` of the source, past the abstracted fetch:
`price?` is the decoded spot price (`none` models a fetch failure or a
missing price field) and `state` the parsed contents of the state file,
which the caller passes in and receives back updated.  A stored prior
value that is truthy but non-numeric makes the momentum arithmetic raise
`TypeError`, modelled as the `Except.error`; a falsy prior short-circuits
the conditional expression to momentum 0. -/
def get_coingecko_momentum (asset : String) (price? : Option DecNum)
    (state : List (String × JValue)) :
    Except String (Option Signal × List (String × JValue)) :=
  match price? with
  | none => .ok (none, state)
  | some p =>
    if p.mant = 0 then .ok (none, state)
    else
      let prev := (dictFind state (STATE_KEY asset)).getD (.num p)
      if truthy prev = false then
        .ok (some { momentum_pct := 0, direction := "neutral",
                    price_now := p.toRat, volume_ratio := 1 },
             dictUpsert state (STATE_KEY asset) (.num p))
      else
        match jvalueNumeric prev with
        | none => .error "TypeError"
        | some q =>
          let momentum := (p.toRat - q) / q * 100
          .ok (some { momentum_pct := momentum,
                      direction :=
                        if 0 < momentum then "up"
                        else if momentum < 0 then "down" else "neutral",
                      price_now := p.toRat, volume_ratio := 1 },
               dictUpsert state (STATE_KEY asset) (.num p))

theorem dictFind_dictUpsert_self (s : List (String × JValue)) (k : String)
    (v : JValue) : dictFind (dictUpsert s k v) k = some v := by
  induction s with
  | nil => simp [dictUpsert, dictFind]
  | cons kv rest ih =>
    by_cases h : kv.1 = k
    · simp [dictUpsert, dictFind, h]
    · simp [dictUpsert, dictFind, h, ih]

theorem dictFind_dictUpsert_ne (s : List (String × JValue)) (k k' : String)
    (v : JValue) (h : k' ≠ k) :
    dictFind (dictUpsert s k v) k' = dictFind s k' := by
  induction s with
  | nil =>
    simp only [dictUpsert, dictFind]
    rw [if_neg fun he => h he.symm]
  | cons kv rest ih =>
    by_cases hk : kv.1 = k
    · simp only [dictUpsert, if_pos hk, dictFind]
      rw [if_neg (by rw [hk]; exact fun he => h he.symm),
        if_neg (by rw [hk]; exact fun he => h he.symm)]
    · simp only [dictUpsert, if_neg hk, dictFind]
      split <;> simp [ih]

/-- C8 (helper): inverting a successful signal-producing run of the
spot-price provider: the price is nonzero and the returned state is the
input state with the asset's key overwritten by the current price. -/
theorem coingecko_ok_inv (asset : String) (p : DecNum)
    (s s1 : List (String × JValue)) (sig1 : Signal)
    (h : get_coingecko_momentum asset (some p) s = .ok (some sig1, s1)) :
    p.mant ≠ 0 ∧ s1 = dictUpsert s (STATE_KEY asset) (.num p) := by
  rw [get_coingecko_momentum] at h
  by_cases hz : p.mant = 0
  · rw [if_pos hz] at h
    injection h with h
    injection h with h1 h2
    exact Option.noConfusion h1
  · rw [if_neg hz] at h
    dsimp only at h
    refine ⟨hz, ?_⟩
    split at h
    · injection h with h
      injection h with h1 h2
      exact h2.symm
    · split at h
      · exact Except.noConfusion h
      · injection h with h
        injection h with h1 h2
        exact h2.symm

/-- C8: running the spot-price provider twice with the same fetched price
yields momentum 0 (direction neutral) on the second run regardless of the
first run's momentum, because the first run persisted the price under the
asset's key and the second run reads it back as the prior price. -/
theorem c8_theorem (asset : String) (p : DecNum)
    (s s1 : List (String × JValue)) (sig1 : Signal)
    (h : get_coingecko_momentum asset (some p) s = .ok (some sig1, s1)) :
    ∃ sig2,
      get_coingecko_momentum asset (some p) s1 =
        .ok (some sig2, dictUpsert s1 (STATE_KEY asset) (.num p)) ∧
      sig2.momentum_pct = 0 ∧ sig2.direction = "neutral" := by
  obtain ⟨hz, hs1⟩ := coingecko_ok_inv asset p s s1 sig1 h
  have hfind : dictFind s1 (STATE_KEY asset) = some (.num p) := by
    rw [hs1]
    exact dictFind_dictUpsert_self s (STATE_KEY asset) (.num p)
  have htr : truthy (JValue.num p) = true := by
    simp [truthy, hz]
  have hq : p.toRat ≠ 0 := by
    rw [DecNum.toRat]
    exact div_ne_zero (by exact_mod_cast hz) (by positivity)
  have hmom : (p.toRat - p.toRat) / p.toRat * 100 = 0 := by
    rw [sub_self, zero_div, zero_mul]
  have hrun : get_coingecko_momentum asset (some p) s1 =
      .ok (some { momentum_pct := (p.toRat - p.toRat) / p.toRat * 100,
                  direction :=
                    if 0 < (p.toRat - p.toRat) / p.toRat * 100 then "up"
                    else if (p.toRat - p.toRat) / p.toRat * 100 < 0 then
                      "down"
                    else "neutral",
                  price_now := p.toRat, volume_ratio := 1 },
        dictUpsert s1 (STATE_KEY asset) (.num p)) := by
    rw [get_coingecko_momentum, if_neg hz]
    dsimp only
    rw [hfind]
    simp only [Option.getD_some]
    rw [if_neg (by simp [htr])]
    rfl
  refine ⟨_, hrun, hmom, ?_⟩
  simp only [hmom, lt_irrefl, if_false]

/-- C8 (witness): prior price 50, current price 100: the first run
reports +100% momentum, the second run with the unchanged price reports
momentum 0. -/
theorem c8_witness :
    ∃ sig2,
      get_coingecko_momentum "BTC" (some ⟨100, 0⟩)
          [("BTC_last_price", JValue.num ⟨100, 0⟩)] =
        .ok (some sig2,
          dictUpsert [("BTC_last_price", JValue.num ⟨100, 0⟩)]
            (STATE_KEY "BTC") (.num ⟨100, 0⟩)) ∧
      sig2.momentum_pct = 0 ∧ sig2.direction = "neutral" :=
  c8_theorem "BTC" ⟨100, 0⟩ [("BTC_last_price", JValue.num ⟨50, 0⟩)]
    [("BTC_last_price", JValue.num ⟨100, 0⟩)]
    { momentum_pct := 100, direction := "up", price_now := 100,
      volume_ratio := 1 }
    (by
      have hkey : STATE_KEY "BTC" = "BTC_last_price" := rfl
      norm_num [get_coingecko_momentum, hkey, dictFind, truthy,
        jvalueNumeric, DecNum.toRat, dictUpsert])

/-- C9: a run of the spot-price provider changes at most the single state
entry keyed `{asset}_last_price`: every other key resolves after the run
exactly as it did before. -/
theorem c9_theorem (asset : String) (price? : Option DecNum)
    (s : List (String × JValue)) (res : Option Signal)
    (s' : List (String × JValue))
    (h : get_coingecko_momentum asset price? s = .ok (res, s'))
    (k : String) (hk : k ≠ STATE_KEY asset) :
    dictFind s' k = dictFind s k := by
  cases price? with
  | none =>
    injection h with h
    injection h with h1 h2
    rw [← h2]
  | some p =>
    rw [get_coingecko_momentum] at h
    by_cases hz : p.mant = 0
    · rw [if_pos hz] at h
      injection h with h
      injection h with h1 h2
      rw [← h2]
    · rw [if_neg hz] at h
      dsimp only at h
      split at h
      · injection h with h
        injection h with h1 h2
        rw [← h2]
        exact dictFind_dictUpsert_ne s (STATE_KEY asset) k (.num p) hk
      · split at h
        · exact Except.noConfusion h
        · injection h with h
          injection h with h1 h2
          rw [← h2]
          exact dictFind_dictUpsert_ne s (STATE_KEY asset) k (.num p) hk

/-- C9 (witness): a run on BTC with a falsy stored prior leaves the
`other` entry untouched. -/
theorem c9_witness :
    dictFind
      (dictUpsert [("BTC_last_price", JValue.bool false),
        ("other", JValue.str "keep")] (STATE_KEY "BTC") (.num ⟨100, 0⟩))
      "other" =
    dictFind [("BTC_last_price", JValue.bool false),
      ("other", JValue.str "keep")] "other" :=
  c9_theorem "BTC" (some ⟨100, 0⟩)
    [("BTC_last_price", JValue.bool false), ("other", JValue.str "keep")]
    (some { momentum_pct := 0, direction := "neutral",
            price_now := (⟨100, 0⟩ : DecNum).toRat, volume_ratio := 1 })
    (dictUpsert [("BTC_last_price", JValue.bool false),
      ("other", JValue.str "keep")] (STATE_KEY "BTC") (.num ⟨100, 0⟩))
    rfl "other" (by decide)

/-- Stable insertion of a candidate into a list already sorted by
deadline: the new element goes before the first element whose deadline is
not strictly smaller, so earlier-discovered candidates stay ahead of
later ones with equal deadlines. -/
def sortInsert (x : Candidate) : List Candidate → List Candidate
  | [] => [x]
  | y :: ys =>
    if y.end_time < x.end_time then y :: sortInsert x ys else x :: y :: ys

/-- `sorted(valid_markets, key=lambda x: x['end_time'])` of the source:
Python's `sorted` is a stable ascending sort, and every stable ascending
sort of the same keyed list yields the same list, so insertion sort
embeds it faithfully. -/
def sortByEnd : List Candidate → List Candidate
  | [] => []
  | x :: xs => sortInsert x (sortByEnd xs)

/-- The selection `sorted(valid_markets, key=...)[0]` performs (as an
`Option` to cover the empty list the source has already excluded). -/
def selectBest (l : List Candidate) : Option Candidate := (sortByEnd l).head?

/-- The first element attaining the minimal deadline, computed directly. -/
def firstMin : List Candidate → Option Candidate
  | [] => none
  | x :: xs =>
    match firstMin xs with
    | none => some x
    | some h => if h.end_time < x.end_time then some h else some x

/-- The typed configuration `run_strategy` reads (the shape a well-typed
`load_config` result has). -/
structure Cfg where
  entry_threshold : ℚ
  min_momentum_pct : ℚ
  max_position : ℚ
  signal_source : String
  lookback_minutes : ℕ
  min_time_remaining : ℤ
  asset : String
  window : String
  volume_confidence : Bool

/-- Observable effects of one decision cycle: a momentum-signal fetch
from the named provider. -/
inductive Event where
  | fetchSignal (source : String)
deriving DecidableEq, Repr

/-- The terminal outcome of one decision cycle. -/
inductive Outcome where
  | noMarkets
  | noSignal
  | tooWeak
  | lowVolume
  | action (target : Candidate) (side : String)

/-- The `min_time_remaining` filter of `run_strategy`:
`(m['end_time'] - now).total_seconds() > cfg['min_time_remaining']`. -/
def validMarkets (cfg : Cfg) (markets : List Candidate) (now : ℤ) :
    List Candidate :=
  markets.filter fun m => cfg.min_time_remaining < m.end_time - now

/-- Inhabitant used for the `headD` of a list the source has checked to
be nonempty. -/
def defaultCandidate : Candidate :=
  { question := "", slug := "", condition_id := none, end_time := 0,
    outcome_prices := .null, fee_rate_bps := 0 }

/-- The decision core of `run_strategy` past the abstracted fetches:
market discovery already resolved to `markets`, the candle and spot
payloads passed in.  Returns the terminal outcome and the list of signal
fetches the cycle performed; an `Except.error` models an uncaught
exception from a provider. -/
def run_strategy (cfg : Cfg) (markets : List Candidate) (now : ℤ)
    (binanceCandles : Option (List Candle)) (cgPrice : Option DecNum)
    (state : List (String × JValue)) : Except String (Outcome × List Event) :=
  let valid := validMarkets cfg markets now
  if valid.isEmpty then .ok (.noMarkets, [])
  else
    let best := (sortByEnd valid).headD defaultCandidate
    match (if cfg.signal_source = "binance" then
            (get_binance_momentum binanceCandles).map
              fun s => (s, [Event.fetchSignal "binance"])
          else
            (get_coingecko_momentum cfg.asset cgPrice state).map
              fun s => (s.1, [Event.fetchSignal "coingecko"])) with
    | .error e => .error e
    | .ok (none, evs) => .ok (.noSignal, evs)
    | .ok (some sig, evs) =>
      if |sig.momentum_pct| < cfg.min_momentum_pct then .ok (.tooWeak, evs)
      else if cfg.volume_confidence = true ∧ sig.volume_ratio < 1 / 2 then
        .ok (.lowVolume, evs)
      else
        .ok (.action best (if sig.direction = "up" then "yes" else "no"), evs)

theorem head?_sortInsert (x : Candidate) (l : List Candidate) :
    (sortInsert x l).head? =
      some (match l.head? with
            | none => x
            | some y => if y.end_time < x.end_time then y else x) := by
  cases l with
  | nil => rfl
  | cons y ys =>
    by_cases h : y.end_time < x.end_time <;>
      simp [sortInsert, h]

theorem selectBest_eq_firstMin : ∀ l : List Candidate,
    selectBest l = firstMin l
  | [] => rfl
  | x :: xs => by
    have ih := selectBest_eq_firstMin xs
    rw [selectBest] at ih
    rw [selectBest]
    show (sortInsert x (sortByEnd xs)).head? = firstMin (x :: xs)
    rw [head?_sortInsert, firstMin, ← ih]
    cases (sortByEnd xs).head? with
    | none => rfl
    | some v =>
      dsimp only
      split <;> rfl

theorem firstMin_none_iff (l : List Candidate) :
    firstMin l = none ↔ l = [] := by
  cases l with
  | nil => simp [firstMin]
  | cons a xs =>
    constructor
    · intro h
      rw [firstMin] at h
      cases hxs : firstMin xs with
      | none => rw [hxs] at h; exact Option.noConfusion h
      | some b =>
        rw [hxs] at h
        dsimp only at h
        split at h <;> exact Option.noConfusion h
    · intro h
      exact List.noConfusion h

theorem firstMin_mem : ∀ (l : List Candidate) (x : Candidate),
    firstMin l = some x → x ∈ l := by
  intro l
  induction l with
  | nil => intro x h; exact Option.noConfusion h
  | cons a xs ih =>
    intro x h
    rw [firstMin] at h
    cases hxs : firstMin xs with
    | none =>
      rw [hxs] at h
      injection h with h
      subst h
      exact List.mem_cons_self a xs
    | some b =>
      rw [hxs] at h
      dsimp only at h
      split at h
      · injection h with h
        subst h
        exact List.mem_cons_of_mem a (ih b hxs)
      · injection h with h
        subst h
        exact List.mem_cons_self a xs

theorem firstMin_le : ∀ (l : List Candidate) (x : Candidate),
    firstMin l = some x → ∀ m ∈ l, x.end_time ≤ m.end_time := by
  intro l
  induction l with
  | nil => intro x h; exact Option.noConfusion h
  | cons a xs ih =>
    intro x h m hm
    rw [firstMin] at h
    cases hxs : firstMin xs with
    | none =>
      rw [hxs] at h
      injection h with h
      subst h
      have hnil : xs = [] := (firstMin_none_iff xs).mp hxs
      subst hnil
      rcases List.mem_singleton.mp hm with rfl
      exact le_refl _
    | some b =>
      rw [hxs] at h
      dsimp only at h
      by_cases hlt : b.end_time < a.end_time
      · rw [if_pos hlt] at h
        injection h with h
        subst h
        rcases List.mem_cons.mp hm with rfl | hmem
        · exact le_of_lt hlt
        · exact ih b hxs m hmem
      · rw [if_neg hlt] at h
        injection h with h
        subst h
        rcases List.mem_cons.mp hm with rfl | hmem
        · exact le_refl _
        · exact le_trans (not_lt.mp hlt) (ih b hxs m hmem)

theorem firstMin_first : ∀ (l : List Candidate) (x : Candidate),
    firstMin l = some x →
      ∃ i, l.get? i = some x ∧
        ∀ j, j < i → ∀ m, l.get? j = some m → x.end_time < m.end_time := by
  intro l
  induction l with
  | nil => intro x h; exact Option.noConfusion h
  | cons a xs ih =>
    intro x h
    rw [firstMin] at h
    cases hxs : firstMin xs with
    | none =>
      rw [hxs] at h
      injection h with h
      subst h
      exact ⟨0, rfl, fun j hj m _ => absurd hj (Nat.not_lt_zero j)⟩
    | some b =>
      rw [hxs] at h
      dsimp only at h
      by_cases hlt : b.end_time < a.end_time
      · rw [if_pos hlt] at h
        injection h with h
        subst h
        obtain ⟨i, hi, hprev⟩ := ih b hxs
        refine ⟨i + 1, hi, fun j hj m hm => ?_⟩
        cases j with
        | zero =>
          injection hm with hm
          exact hm ▸ hlt
        | succ j' =>
          exact hprev j' (Nat.lt_of_succ_lt_succ hj) m hm
      · rw [if_neg hlt] at h
        injection h with h
        subst h
        exact ⟨0, rfl, fun j hj m _ => absurd hj (Nat.not_lt_zero j)⟩

/-- C6: on every nonempty set of candidates passing the
`min_time_remaining` filter, the selection `run_strategy` performs —
the head of the stable ascending sort by deadline — yields a candidate of
the set with minimal deadline that is the first such candidate in
discovery order: every earlier-discovered candidate has a strictly later
deadline. -/
theorem c6_theorem (cfg : Cfg) (markets : List Candidate) (now : ℤ)
    (hne : validMarkets cfg markets now ≠ []) :
    ∃ x, selectBest (validMarkets cfg markets now) = some x ∧
      (sortByEnd (validMarkets cfg markets now)).headD defaultCandidate = x ∧
      x ∈ validMarkets cfg markets now ∧
      (∀ m ∈ validMarkets cfg markets now, x.end_time ≤ m.end_time) ∧
      ∃ i, (validMarkets cfg markets now).get? i = some x ∧
        ∀ j, j < i → ∀ m, (validMarkets cfg markets now).get? j = some m →
          x.end_time < m.end_time := by
  cases hsel : firstMin (validMarkets cfg markets now) with
  | none => exact absurd ((firstMin_none_iff _).mp hsel) hne
  | some x =>
    have hbest : selectBest (validMarkets cfg markets now) = some x :=
      (selectBest_eq_firstMin _).trans hsel
    refine ⟨x, hbest, ?_, firstMin_mem _ x hsel, firstMin_le _ x hsel,
      firstMin_first _ x hsel⟩
    rw [selectBest] at hbest
    rw [List.headD_eq_head?, hbest]
    rfl

/-- C6 (witness): three concrete candidates — deadlines 500, 300, 300 —
where the selection must pick the first candidate with deadline 300. -/
theorem c6_witness :
    ∃ x, selectBest (validMarkets
        { entry_threshold := 1/20, min_momentum_pct := 1/2,
          max_position := 5, signal_source := "binance",
          lookback_minutes := 5, min_time_remaining := 60, asset := "BTC",
          window := "5m", volume_confidence := true }
        [{ defaultCandidate with question := "a", end_time := 500 },
         { defaultCandidate with question := "b", end_time := 300 },
         { defaultCandidate with question := "c", end_time := 300 }] 0) =
      some x ∧
    (sortByEnd (validMarkets
        { entry_threshold := 1/20, min_momentum_pct := 1/2,
          max_position := 5, signal_source := "binance",
          lookback_minutes := 5, min_time_remaining := 60, asset := "BTC",
          window := "5m", volume_confidence := true }
        [{ defaultCandidate with question := "a", end_time := 500 },
         { defaultCandidate with question := "b", end_time := 300 },
         { defaultCandidate with question := "c", end_time := 300 }] 0)).headD
      defaultCandidate = x ∧
    x ∈ validMarkets
        { entry_threshold := 1/20, min_momentum_pct := 1/2,
          max_position := 5, signal_source := "binance",
          lookback_minutes := 5, min_time_remaining := 60, asset := "BTC",
          window := "5m", volume_confidence := true }
        [{ defaultCandidate with question := "a", end_time := 500 },
         { defaultCandidate with question := "b", end_time := 300 },
         { defaultCandidate with question := "c", end_time := 300 }] 0 ∧
    (∀ m ∈ validMarkets
        { entry_threshold := 1/20, min_momentum_pct := 1/2,
          max_position := 5, signal_source := "binance",
          lookback_minutes := 5, min_time_remaining := 60, asset := "BTC",
          window := "5m", volume_confidence := true }
        [{ defaultCandidate with question := "a", end_time := 500 },
         { defaultCandidate with question := "b", end_time := 300 },
         { defaultCandidate with question := "c", end_time := 300 }] 0,
      x.end_time ≤ m.end_time) ∧
    ∃ i, (validMarkets
        { entry_threshold := 1/20, min_momentum_pct := 1/2,
          max_position := 5, signal_source := "binance",
          lookback_minutes := 5, min_time_remaining := 60, asset := "BTC",
          window := "5m", volume_confidence := true }
        [{ defaultCandidate with question := "a", end_time := 500 },
         { defaultCandidate with question := "b", end_time := 300 },
         { defaultCandidate with question := "c", end_time := 300 }] 0).get?
        i = some x ∧
      ∀ j, j < i → ∀ m, (validMarkets
        { entry_threshold := 1/20, min_momentum_pct := 1/2,
          max_position := 5, signal_source := "binance",
          lookback_minutes := 5, min_time_remaining := 60, asset := "BTC",
          window := "5m", volume_confidence := true }
        [{ defaultCandidate with question := "a", end_time := 500 },
         { defaultCandidate with question := "b", end_time := 300 },
         { defaultCandidate with question := "c", end_time := 300 }] 0).get?
          j = some m → x.end_time < m.end_time :=
  c6_theorem
    { entry_threshold := 1/20, min_momentum_pct := 1/2, max_position := 5,
      signal_source := "binance", lookback_minutes := 5,
      min_time_remaining := 60, asset := "BTC", window := "5m",
      volume_confidence := true }
    [{ defaultCandidate with question := "a", end_time := 500 },
     { defaultCandidate with question := "b", end_time := 300 },
     { defaultCandidate with question := "c", end_time := 300 }] 0
    (by
      intro hcontra
      exact absurd (congrArg List.isEmpty hcontra) (by decide))

/-- C7: whenever no discovered market's deadline is more than
`min_time_remaining` seconds past the current instant, the cycle ends
with the terminal "no suitable markets" outcome and an empty effect
trace: no momentum-signal fetch from either provider is attempted. -/
theorem c7_theorem (cfg : Cfg) (markets : List Candidate) (now : ℤ)
    (binanceCandles : Option (List Candle)) (cgPrice : Option DecNum)
    (state : List (String × JValue))
    (h : validMarkets cfg markets now = []) :
    run_strategy cfg markets now binanceCandles cgPrice state =
      .ok (.noMarkets, []) := by
  rw [run_strategy]
  dsimp only
  rw [h]
  rfl

/-- C7 (witness): a market 10 seconds from deadline against a 60-second
floor; the cycle is terminal with no fetch recorded. -/
theorem c7_witness :
    run_strategy
      { entry_threshold := 1/20, min_momentum_pct := 1/2, max_position := 5,
        signal_source := "binance", lookback_minutes := 5,
        min_time_remaining := 60, asset := "BTC", window := "5m",
        volume_confidence := true }
      [{ defaultCandidate with question := "soon", end_time := 100 }] 90
      none none [] = .ok (.noMarkets, []) :=
  c7_theorem
    { entry_threshold := 1/20, min_momentum_pct := 1/2, max_position := 5,
      signal_source := "binance", lookback_minutes := 5,
      min_time_remaining := 60, asset := "BTC", window := "5m",
      volume_confidence := true }
    [{ defaultCandidate with question := "soon", end_time := 100 }] 90
    none none [] rfl

end KIT
